import Mathlib

/-! Verification development for the gemm_hls host harness
(src/host/RunHardware.cpp).

The harness parses a mode argument (`hw` / `hw_emu`) and a verification
toggle (`on` / `off`), optionally generates random operands and packs them
into memory-width packs, drives an OpenCL accelerator session (context,
program, buffers, transfers, kernel execution, timing), and verifies the
device result against a host reference within tolerance 1e-3.

The embedding models the harness as a pure function from its inputs (command
line, the prior environment, an error oracle for the accelerator runtime, the
measured kernel time, and the data the device writes back) to an exit code, a
trace of observable side effects, and the final state of the
`XCL_EMULATION_MODE` environment variable.  The element type `Data_t` is
real-valued by default and is modelled exactly by `ℚ`; the verification scan
is kept generic over a linear ordered ring so that the integral-`Data_t`
build is the same definition instantiated at `ℤ`.
-/

namespace GemmHost

/-- Problem configuration: the compile-time constants `kSizeN`, `kSizeK`,
`kSizeM`, `kMemoryWidth` and `kSeed` (declared in the generated
configuration header, not part of src/), carried as a parameter record. -/
structure Config where
  n : Nat
  k : Nat
  m : Nat
  w : Nat
  seed : Nat

/-- Modelled from the spec: `Pack` (declared in src/host/Utility.h, which is
not part of src/) converts a flat operand into memory packs; pack `i` holds
elements `[i*W, (i+1)*W)` of the operand, in original order. -/
def Pack {α : Type} (W : Nat) (x : List α) : List (List α) :=
  if h : W = 0 ∨ x.isEmpty then []
  else x.take W :: Pack W (x.drop W)
termination_by x.length
decreasing_by
  push_neg at h
  have hlen : 0 < x.length := by
    cases x with
    | nil => simp at h
    | cons y ys => simp
  simp only [List.length_drop]
  omega

/-- Modelled from the spec: `Unpack` (declared in src/host/Utility.h, which
is not part of src/) flattens memory packs back into a scalar sequence,
preserving order. -/
def Unpack {α : Type} (packs : List (List α)) : List α :=
  packs.flatten

/-- Modelled from the spec: the harness seeds `std::default_random_engine`
with `kSeed` (RunHardware.cpp line 23); the engine is implementation-defined
and is modelled as the minimal standard linear congruential generator. -/
def rngNext (s : Nat) : Nat := 16807 * s % 2147483647

/-- Modelled from the spec: drawing `n` operand elements from the engine
state `s` (RunHardware.cpp lines 24-27 and 62-68); the distribution is
uniform over [1,10], modelled as `1 + state % 10`.  Returns the drawn values
together with the final engine state, so that the right operand continues
from the state the left operand left behind. -/
def genFrom (s : Nat) : Nat → List ℚ × Nat
  | 0 => ([], s)
  | n + 1 =>
    let s2 := rngNext s
    let rest := genFrom s2 n
    ((1 + ((s2 % 10 : Nat) : ℚ)) :: rest.1, rest.2)

/-- The coordinates `(i, j)` visited by the nested verification loops of
RunHardware.cpp lines 134-135: `i` over rows, `j` over columns, row-major. -/
def coordsRowMajor (n m : Nat) : List (Nat × Nat) :=
  (List.range n).flatMap fun i => (List.range m).map fun j => (i, j)

/-- Modelled from the spec: `ReferenceImplementation` (declared in
MatrixMultiplication.h, which is not part of src/) writes
`C[i][j] = Σ_k A[i][k]·B[k][j]` into a row-major result. -/
def referenceFlat (n k m : Nat) (a b : List ℚ) : List ℚ :=
  (coordsRowMajor n m).map fun p =>
    ∑ t ∈ Finset.range k, a.getD (p.1 * k + t) 0 * b.getD (t * m + p.2) 0

/-- The body of the verification loop of RunHardware.cpp lines 134-145: walk
the given coordinates, read `cTest[i*M+j]` and `cRef[i*M+j]`, and return the
first pair whose absolute difference exceeds `eps`, together with both
values exactly as the mismatch message prints them. -/
def scanVerify {α : Type} [LinearOrderedCommRing α] (eps : α) (t r : List α)
    (m : Nat) : List (Nat × Nat) → Option (Nat × Nat × α × α)
  | [] => none
  | (i, j) :: rest =>
    let tv := t.getD (i * m + j) 0
    let rv := r.getD (i * m + j) 0
    if eps < |tv - rv| then some (i, j, tv, rv) else scanVerify eps t r m rest

/-- The full verification scan: the first mismatch in row-major order, or
`none` when every coordinate is within tolerance. -/
def findMismatch {α : Type} [LinearOrderedCommRing α] (eps : α) (t r : List α)
    (n m : Nat) : Option (Nat × Nat × α × α) :=
  scanVerify eps t r m (coordsRowMajor n m)

/-- The per-coordinate mismatch condition of RunHardware.cpp line 139:
`|cTest[i*m+j] - cRef[i*m+j]| > eps`. -/
def mismatchHere {α : Type} [LinearOrderedCommRing α] (eps : α) (t r : List α)
    (m i j : Nat) : Prop :=
  eps < |t.getD (i * m + j) 0 - r.getD (i * m + j) 0|

/-- The tolerance `static_cast<Data_t>(1e-3)` of RunHardware.cpp line 139
for real-valued `Data_t`, modelled exactly in `ℚ`. -/
def epsQ : ℚ := 1 / 1000

/-- C++ floating-to-integral conversion truncates toward zero. -/
def truncToInt (q : ℚ) : ℤ :=
  q.num.tdiv (q.den : ℤ)

/-- The tolerance `static_cast<Data_t>(1e-3)` of RunHardware.cpp line 139
when `Data_t` is an integral type: the truncating conversion of 1e-3. -/
def epsInt : ℤ := truncToInt epsQ

/-- The bitstream image used for mode `hw` (RunHardware.cpp line 32). -/
def hwPath : String := "MatrixMultiplication_hw.xclbin"

/-- The bitstream image used for mode `hw_emu` (RunHardware.cpp line 42). -/
def hwEmuPath : String := "MatrixMultiplication_hw_emu.xclbin"

/-- Argument 1 handling (RunHardware.cpp lines 37-47): `hw_emu` selects
emulation, sets `XCL_EMULATION_MODE` and the emulation bitstream; anything
other than `hw` is a usage error.  Returns `(emulation, env value, path)`. -/
def parseMode (s : String) : Option (Bool × Option String × String) :=
  if s = "hw_emu" then some (true, some "hw_emu", hwEmuPath)
  else if s = "hw" then some (false, none, hwPath)
  else none

/-- Argument 2 handling (RunHardware.cpp lines 48-56): `off` disables
verification; anything other than `on` is a usage error. -/
def parseVerify (s : String) : Option Bool :=
  if s = "off" then some false
  else if s = "on" then some true
  else none

/-- Outcome of command-line processing (RunHardware.cpp lines 29-56):
`result` is `some (emulation, verify)` when the run proceeds and `none` when
usage is printed and the process exits with status 1; `envAfter` is the
value of `XCL_EMULATION_MODE` at that point (line 31 unset it, line 41 may
have set it); `path` is the selected bitstream image. -/
structure ParseOutcome where
  result : Option (Bool × Bool)
  envAfter : Option String
  path : String

/-- Command-line processing of RunHardware.cpp lines 29-56.  `args` is
`argv[1..]`; `argc > 3` (more than two arguments) is a usage error before
argument 1 is inspected, and a bad argument 1 is a usage error before
argument 2 is inspected. -/
def parseArgs : List String → ParseOutcome
  | [] => ⟨some (false, true), none, hwPath⟩
  | [a1] =>
    match parseMode a1 with
    | none => ⟨none, none, hwPath⟩
    | some (emu, env, path) => ⟨some (emu, true), env, path⟩
  | [a1, a2] =>
    match parseMode a1 with
    | none => ⟨none, none, hwPath⟩
    | some (emu, env, path) =>
      match parseVerify a2 with
      | none => ⟨none, env, path⟩
      | some v => ⟨some (emu, v), env, path⟩
  | _ :: _ :: _ :: _ => ⟨none, none, hwPath⟩

/-- Access mode of a device buffer (`hlslib::ocl::Access`). -/
inductive Access where
  | read
  | write
  deriving DecidableEq

/-- Observable side effects of a run, in program order: host operand
generation, the accelerator session operations of RunHardware.cpp lines
77-117, the reference computation, and the error/mismatch reports. -/
inductive Event where
  | generate
  | makeContext
  | makeProgram (path : String)
  | makeBuffer (bank : Nat) (size : Nat) (acc : Access)
  | copyFromHost (bufId : Nat) (payload : List (List ℚ))
  | makeKernel
  | execute
  | printPerf (gops : ℚ)
  | copyToHost (bufId : Nat)
  | refCompute
  | stderrMsg (msg : String)
  | mismatch (i : Nat) (j : Nat) (tv : ℚ) (rv : ℚ)
  deriving DecidableEq

/-- The throughput figure of RunHardware.cpp lines 106-108:
`1e-9 * (2 * kSizeN * kSizeK * kSizeM) / elapsed`, modelled exactly. -/
def perfOf (cfg : Config) (elapsed : ℚ) : ℚ :=
  (1 / 1000000000) * (2 * (cfg.n : ℚ) * (cfg.k : ℚ) * (cfg.m : ℚ)) / elapsed

/-- Host-side data prepared in RunHardware.cpp lines 58-74: when verifying,
the two generated operands and the packed forms of `a`, `b` and of the
zero-initialized `cRef`; when not verifying, all five stay empty. -/
structure HostData where
  a : List ℚ
  b : List ℚ
  aMem : List (List ℚ)
  bMem : List (List ℚ)
  cMem : List (List ℚ)

/-- Host memory initialization (RunHardware.cpp lines 58-74).  The left
operand is drawn first, the right operand continues from the engine state
the left operand left behind, and `cRef` starts as `kSizeN * kSizeM`
zeros. -/
def hostInit (cfg : Config) (verify : Bool) : HostData :=
  if verify then
    let pa := genFrom cfg.seed (cfg.n * cfg.k)
    let pb := genFrom pa.2 (cfg.k * cfg.m)
    ⟨pa.1, pb.1, Pack cfg.w pa.1, Pack cfg.w pb.1,
      Pack cfg.w (List.replicate (cfg.n * cfg.m) 0)⟩
  else ⟨[], [], [], [], []⟩

/-- The accelerator-session operations of RunHardware.cpp lines 77-117 in
program order: context, program, the three buffers (banks 0, 1, 1, sized in
memory packs), the three host-to-device copies (verify only), kernel
creation, timed execution, the throughput report, and the device-to-host
copy of the result (verify only). -/
def sessionSteps (cfg : Config) (verify : Bool) (path : String)
    (aMem bMem cMem : List (List ℚ)) (elapsed : ℚ) : List Event :=
  [Event.makeContext, Event.makeProgram path,
   Event.makeBuffer 0 (cfg.n * cfg.k / cfg.w) Access.read,
   Event.makeBuffer 1 (cfg.k * cfg.m / cfg.w) Access.read,
   Event.makeBuffer 1 (cfg.n * cfg.m / cfg.w) Access.write]
  ++ (if verify then
        [Event.copyFromHost 0 aMem, Event.copyFromHost 1 bMem,
         Event.copyFromHost 2 cMem]
      else [])
  ++ [Event.makeKernel, Event.execute, Event.printPerf (perfOf cfg elapsed)]
  ++ (if verify then [Event.copyToHost 2] else [])

/-- Execution of the session operations under an error oracle: before
performing step number `i` the accelerator runtime may throw
`std::runtime_error` with a message (`oracle i = some msg`); execution stops
at the first throw and returns the events of the completed steps together
with the error, mirroring the single try block of RunHardware.cpp lines
77-123. -/
def runSteps (oracle : Nat → Option String) : Nat → List Event →
    List Event × Option String
  | _, [] => ([], none)
  | i, e :: rest =>
    match oracle i with
    | some msg => ([], some msg)
    | none =>
      let done := runSteps oracle (i + 1) rest
      (e :: done.1, done.2)

/-- Result of one run: the process exit code, the trace of observable
effects, the final value of `XCL_EMULATION_MODE`, and whether the usage text
was printed. -/
structure RunResult where
  exitCode : Nat
  events : List Event
  env : Option String
  usageShown : Bool
  deriving DecidableEq

/-- The run after command-line processing (RunHardware.cpp lines 58-149):
host initialization, the accelerator session under the error oracle (a
caught `std::runtime_error` prints the message to standard error and exits
with status 1), then, when verifying, the reference computation and the
fail-fast verification scan over the data the device wrote back. -/
def runBody (cfg : Config) (verify : Bool) (env : Option String)
    (path : String) (oracle : Nat → Option String) (elapsed : ℚ)
    (deviceResult : List (List ℚ)) : RunResult :=
  let h := hostInit cfg verify
  let genEvents : List Event := if verify then [Event.generate] else []
  let steps := sessionSteps cfg verify path h.aMem h.bMem h.cMem elapsed
  let done := runSteps oracle 0 steps
  match done.2 with
  | some msg => ⟨1, genEvents ++ done.1 ++ [Event.stderrMsg msg], env, false⟩
  | none =>
    if verify then
      let cTest := Unpack deviceResult
      let cRef := referenceFlat cfg.n cfg.k cfg.m h.a h.b
      match findMismatch epsQ cTest cRef cfg.n cfg.m with
      | some (i, j, tv, rv) =>
        ⟨1, genEvents ++ done.1 ++ [Event.refCompute, Event.mismatch i j tv rv],
          env, false⟩
      | none => ⟨0, genEvents ++ done.1 ++ [Event.refCompute], env, false⟩
    else ⟨0, genEvents ++ done.1, env, false⟩

/-- One full run of the harness `main` (RunHardware.cpp lines 21-150) as a
function of the command line `args = argv[1..]`, the prior value of
`XCL_EMULATION_MODE` in the calling shell (line 31 unsets it before anything
else, so it is discarded), the accelerator-runtime error oracle, the
measured kernel time, and the packed data the device writes back. -/
def run (cfg : Config) (args : List String) (priorEnv : Option String)
    (oracle : Nat → Option String) (elapsed : ℚ)
    (deviceResult : List (List ℚ)) : RunResult :=
  let _ := priorEnv
  let p := parseArgs args
  match p.result with
  | none => ⟨1, [], p.envAfter, true⟩
  | some (_, verify) =>
    runBody cfg verify p.envAfter p.path oracle elapsed deviceResult

/-- Follows the spec's words for comparison with `parseArgs` (refinement):
an argument list is valid when it has at most two entries, argument 1, if
present, is `hw` or `hw_emu`, and argument 2, if present, is `on` or
`off`. -/
def specValidArgs : List String → Bool
  | [] => true
  | [a1] => a1 == "hw" || a1 == "hw_emu"
  | [a1, a2] => (a1 == "hw" || a1 == "hw_emu") && (a2 == "on" || a2 == "off")
  | _ => false

/-- Number of mismatch reports in a trace. -/
def countMismatchEvents (l : List Event) : Nat :=
  (l.filter fun e =>
    match e with
    | Event.mismatch _ _ _ _ => true
    | _ => false).length

/-- Number of standard-error messages in a trace. -/
def countStderrEvents (l : List Event) : Nat :=
  (l.filter fun e =>
    match e with
    | Event.stderrMsg _ => true
    | _ => false).length

theorem Pack_nil {α : Type} (W : Nat) : Pack (α := α) W [] = [] := by
  rw [Pack]
  simp

theorem Pack_cons {α : Type} (W : Nat) (hW : 0 < W) (x : List α) (hx : x ≠ []) :
    Pack W x = x.take W :: Pack W (x.drop W) := by
  rw [Pack]
  rw [dif_neg]
  push_neg
  refine ⟨by omega, ?_⟩
  simp [List.isEmpty_iff, hx]

theorem unpack_pack_aux {α : Type} (W : Nat) (hW : 0 < W) :
    ∀ (n : Nat) (x : List α), x.length ≤ n → Unpack (Pack W x) = x := by
  intro n
  induction n with
  | zero =>
    intro x hx
    have hnil : x = [] := List.eq_nil_of_length_eq_zero (Nat.le_zero.mp hx)
    subst hnil
    simp [Pack_nil, Unpack]
  | succ n ih =>
    intro x hx
    by_cases hempty : x = []
    · subst hempty
      simp [Pack_nil, Unpack]
    · rw [Pack_cons W hW x hempty]
      have hdrop : (x.drop W).length ≤ n := by
        have hlen : 0 < x.length := List.length_pos.mpr hempty
        simp only [List.length_drop]
        omega
      simp only [Unpack, List.flatten_cons]
      have := ih (x.drop W) hdrop
      simp only [Unpack] at this
      rw [this]
      exact List.take_append_drop W x

/-- C1: unpacking the packed form of any operand whose length is a multiple
of the memory width `W` reproduces it exactly, element for element and order
preserving, for every element type; `Pack` and `Unpack` are pure functions
of their input. -/
theorem pack_unpack_roundtrip {α : Type} (W : Nat) (x : List α)
    (hW : 0 < W) (hlen : W ∣ x.length) :
    Unpack (Pack W x) = x :=
  unpack_pack_aux W hW x.length x le_rfl

/-- C1 witness: the round trip at `W = 2` on the concrete operand
`[1, 2, 3, 4]`. -/
theorem pack_unpack_roundtrip_witness :
    0 < 2 ∧ 2 ∣ ([1, 2, 3, 4] : List ℤ).length ∧
      Unpack (Pack 2 ([1, 2, 3, 4] : List ℤ)) = [1, 2, 3, 4] :=
  ⟨by decide, by decide,
    pack_unpack_roundtrip 2 [1, 2, 3, 4] (by decide) (by decide)⟩

theorem scanVerify_eq_none_iff {α : Type} [LinearOrderedCommRing α]
    (eps : α) (t r : List α) (m : Nat) (l : List (Nat × Nat)) :
    scanVerify eps t r m l = none ↔
      ∀ p ∈ l, ¬ mismatchHere eps t r m p.1 p.2 := by
  induction l with
  | nil => simp [scanVerify]
  | cons p rest ih =>
    obtain ⟨i, j⟩ := p
    simp only [scanVerify]
    split
    · rename_i hlt
      constructor
      · intro h
        cases h
      · intro h
        exact absurd hlt (h (i, j) (List.mem_cons_self _ _))
    · rename_i hnlt
      rw [ih]
      constructor
      · intro h q hq
        rcases List.mem_cons.mp hq with hq | hq
        · cases hq
          exact hnlt
        · exact h q hq
      · intro h q hq
        exact h q (List.mem_cons_of_mem _ hq)

theorem scanVerify_eq_some {α : Type} [LinearOrderedCommRing α]
    (eps : α) (t r : List α) (m : Nat) :
    ∀ (l : List (Nat × Nat)) (i j : Nat) (tv rv : α),
      scanVerify eps t r m l = some (i, j, tv, rv) →
      tv = t.getD (i * m + j) 0 ∧ rv = r.getD (i * m + j) 0 ∧
        mismatchHere eps t r m i j ∧
        ∃ l1 l2, l = l1 ++ (i, j) :: l2 ∧
          ∀ p ∈ l1, ¬ mismatchHere eps t r m p.1 p.2 := by
  intro l
  induction l with
  | nil =>
    intro i j tv rv h
    simp [scanVerify] at h
  | cons p rest ih =>
    obtain ⟨i0, j0⟩ := p
    intro i j tv rv h
    simp only [scanVerify] at h
    split at h
    · rename_i hlt
      obtain ⟨rfl, rfl, rfl, rfl⟩ : i0 = i ∧ j0 = j ∧
          t.getD (i0 * m + j0) 0 = tv ∧ r.getD (i0 * m + j0) 0 = rv := by
        simpa using h
      exact ⟨rfl, rfl, hlt, [], rest, rfl, by simp⟩
    · rename_i hnlt
      obtain ⟨h1, h2, h3, l1, l2, hl, hall⟩ := ih i j tv rv h
      refine ⟨h1, h2, h3, (i0, j0) :: l1, l2, by rw [hl]; simp, ?_⟩
      intro q hq
      rcases List.mem_cons.mp hq with hq | hq
      · cases hq
        exact hnlt
      · exact hall q hq

theorem mem_coordsRowMajor (n m : Nat) (p : Nat × Nat) :
    p ∈ coordsRowMajor n m ↔ p.1 < n ∧ p.2 < m := by
  obtain ⟨i, j⟩ := p
  constructor
  · intro h
    simp only [coordsRowMajor, List.mem_flatMap, List.mem_map,
      List.mem_range] at h
    obtain ⟨a, ha, b, hb, hab⟩ := h
    cases hab
    exact ⟨ha, hb⟩
  · intro ⟨hi, hj⟩
    simp only [coordsRowMajor, List.mem_flatMap, List.mem_map, List.mem_range]
    exact ⟨i, hi, j, hj, rfl⟩

/-- Strict row-major precedence on coordinates. -/
def lexLt (p q : Nat × Nat) : Prop :=
  p.1 < q.1 ∨ (p.1 = q.1 ∧ p.2 < q.2)

theorem pairwise_lexLt_coords (n m : Nat) :
    List.Pairwise lexLt (coordsRowMajor n m) := by
  unfold coordsRowMajor
  rw [List.flatMap_def, List.pairwise_flatten]
  constructor
  · intro l' hl'
    simp only [List.mem_map, List.mem_range] at hl'
    obtain ⟨i, _, rfl⟩ := hl'
    rw [List.pairwise_map]
    exact (List.pairwise_lt_range m).imp fun h => Or.inr ⟨rfl, h⟩
  · rw [List.pairwise_map]
    refine (List.pairwise_lt_range n).imp ?_
    intro a b hab x hx y hy
    simp only [List.mem_map, List.mem_range] at hx hy
    obtain ⟨j1, _, rfl⟩ := hx
    obtain ⟨j2, _, rfl⟩ := hy
    exact Or.inl hab

theorem findMismatch_eq_none_iff {α : Type} [LinearOrderedCommRing α]
    (eps : α) (t r : List α) (n m : Nat) :
    findMismatch eps t r n m = none ↔
      ∀ i j, i < n → j < m → ¬ mismatchHere eps t r m i j := by
  rw [findMismatch, scanVerify_eq_none_iff]
  constructor
  · intro h i j hi hj
    exact h (i, j) ((mem_coordsRowMajor n m (i, j)).mpr ⟨hi, hj⟩)
  · intro h p hp
    have hb := (mem_coordsRowMajor n m p).mp hp
    exact h p.1 p.2 hb.1 hb.2

theorem findMismatch_first {α : Type} [LinearOrderedCommRing α]
    (eps : α) (t r : List α) (n m i j : Nat) (tv rv : α)
    (h : findMismatch eps t r n m = some (i, j, tv, rv)) :
    i < n ∧ j < m ∧ tv = t.getD (i * m + j) 0 ∧ rv = r.getD (i * m + j) 0 ∧
      mismatchHere eps t r m i j ∧
      ∀ i' j', i' < n → j' < m → (i' < i ∨ (i' = i ∧ j' < j)) →
        ¬ mismatchHere eps t r m i' j' := by
  obtain ⟨h1, h2, h3, l1, l2, hl, hall⟩ :=
    scanVerify_eq_some eps t r m (coordsRowMajor n m) i j tv rv h
  have hmem : (i, j) ∈ coordsRowMajor n m := by
    rw [hl]
    simp
  have hb := (mem_coordsRowMajor n m (i, j)).mp hmem
  refine ⟨hb.1, hb.2, h1, h2, h3, ?_⟩
  intro i' j' hi' hj' hlex
  have hpw := pairwise_lexLt_coords n m
  rw [hl, List.pairwise_append] at hpw
  obtain ⟨_, hpw2, _⟩ := hpw
  have hmem' : (i', j') ∈ l1 ++ (i, j) :: l2 := by
    rw [← hl]
    exact (mem_coordsRowMajor n m (i', j')).mpr ⟨hi', hj'⟩
  rcases List.mem_append.mp hmem' with hm | hm
  · exact hall _ hm
  · rcases List.mem_cons.mp hm with hm | hm
    · obtain ⟨rfl, rfl⟩ : i' = i ∧ j' = j := by
        simpa using hm
      omega
    · have hgt := (List.pairwise_cons.mp hpw2).1 _ hm
      unfold lexLt at hgt
      simp only at hgt
      omega

/-- C2: at every coordinate `(i, j)` the verification declares a mismatch
exactly when `|accelerator − reference|` strictly exceeds `ε = 1e-3` in the
element's numeric type: the scan accepts everything iff every coordinate is
within `ε`; an element differing by exactly `ε` is not a mismatch; a
difference of `ε` plus any positive increment is a mismatch; and a reported
mismatch carries its exact coordinate together with both the accelerator
value and the reference value. -/
theorem verification_tolerance_boundary (t r : List ℚ) (n m i j : Nat)
    (hi : i < n) (hj : j < m) :
    (findMismatch epsQ t r n m = none ↔
      ∀ i' j', i' < n → j' < m →
        |t.getD (i' * m + j') 0 - r.getD (i' * m + j') 0| ≤ epsQ)
    ∧ (|t.getD (i * m + j) 0 - r.getD (i * m + j) 0| = epsQ →
        ¬ mismatchHere epsQ t r m i j)
    ∧ (∀ δ : ℚ, 0 < δ →
        |t.getD (i * m + j) 0 - r.getD (i * m + j) 0| = epsQ + δ →
        mismatchHere epsQ t r m i j)
    ∧ (∀ i' j' tv rv, findMismatch epsQ t r n m = some (i', j', tv, rv) →
        i' < n ∧ j' < m ∧ tv = t.getD (i' * m + j') 0 ∧
          rv = r.getD (i' * m + j') 0 ∧ epsQ < |tv - rv|) := by
  refine ⟨?_, ?_, ?_, ?_⟩
  · rw [findMismatch_eq_none_iff]
    constructor
    · intro h i' j' hi' hj'
      have := h i' j' hi' hj'
      unfold mismatchHere at this
      linarith [not_lt.mp this]
    · intro h i' j' hi' hj'
      unfold mismatchHere
      exact not_lt.mpr (h i' j' hi' hj')
  · intro heq
    unfold mismatchHere
    rw [heq]
    exact lt_irrefl _
  · intro δ hδ heq
    unfold mismatchHere
    rw [heq]
    linarith
  · intro i' j' tv rv h
    obtain ⟨h1, h2, h3, h4, h5, _⟩ := findMismatch_first epsQ t r n m i' j' tv rv h
    refine ⟨h1, h2, h3, h4, ?_⟩
    rw [h3, h4]
    exact h5

/-- C2 witness: the boundary at the concrete 1×1 problem with accelerator
value 80 and reference value 80. -/
theorem verification_tolerance_boundary_witness :
    0 < 1 ∧ 0 < 1 ∧
      ((findMismatch epsQ [(80 : ℚ)] [(80 : ℚ)] 1 1 = none ↔
        ∀ i' j', i' < 1 → j' < 1 →
          |([(80 : ℚ)]).getD (i' * 1 + j') 0 -
            ([(80 : ℚ)]).getD (i' * 1 + j') 0| ≤ epsQ)
      ∧ (|([(80 : ℚ)]).getD (0 * 1 + 0) 0 -
            ([(80 : ℚ)]).getD (0 * 1 + 0) 0| = epsQ →
          ¬ mismatchHere epsQ [(80 : ℚ)] [(80 : ℚ)] 1 0 0)
      ∧ (∀ δ : ℚ, 0 < δ →
          |([(80 : ℚ)]).getD (0 * 1 + 0) 0 -
            ([(80 : ℚ)]).getD (0 * 1 + 0) 0| = epsQ + δ →
          mismatchHere epsQ [(80 : ℚ)] [(80 : ℚ)] 1 0 0)
      ∧ (∀ i' j' tv rv,
          findMismatch epsQ [(80 : ℚ)] [(80 : ℚ)] 1 1 = some (i', j', tv, rv) →
          i' < 1 ∧ j' < 1 ∧ tv = ([(80 : ℚ)]).getD (i' * 1 + j') 0 ∧
            rv = ([(80 : ℚ)]).getD (i' * 1 + j') 0 ∧ epsQ < |tv - rv|)) :=
  ⟨Nat.one_pos, Nat.one_pos,
    verification_tolerance_boundary [(80 : ℚ)] [(80 : ℚ)] 1 1 0 0
      Nat.one_pos Nat.one_pos⟩

theorem runSteps_of_none_oracle :
    ∀ (l : List Event) (i : Nat),
      runSteps (fun _ => none) i l = (l, none) := by
  intro l
  induction l with
  | nil => intro i; rfl
  | cons e rest ih =>
    intro i
    simp only [runSteps]
    rw [ih (i + 1)]

theorem runSteps_stops_at_err (oracle : Nat → Option String) :
    ∀ (l : List Event) (base i : Nat) (msg : String),
      oracle (base + i) = some msg →
      (∀ j, j < i → oracle (base + j) = none) →
      i < l.length →
      runSteps oracle base l = (l.take i, some msg) := by
  intro l
  induction l with
  | nil =>
    intro base i msg _ _ h3
    simp at h3
  | cons e rest ih =>
    intro base i msg h1 h2 h3
    cases i with
    | zero =>
      simp only [Nat.add_zero] at h1
      simp [runSteps, h1]
    | succ i' =>
      have h0 : oracle base = none := by
        have := h2 0 (Nat.succ_pos i')
        simpa using this
      simp only [runSteps, h0]
      have hrec := ih (base + 1) i' msg
        (by rw [show base + 1 + i' = base + (i' + 1) by omega]; exact h1)
        (fun j hj => by
          rw [show base + 1 + j = base + (j + 1) by omega]
          exact h2 (j + 1) (by omega))
        (by simp only [List.length_cons] at h3; omega)
      rw [hrec]
      simp [List.take_succ_cons]

theorem run_eq_usage (cfg : Config) (args : List String)
    (priorEnv : Option String) (oracle : Nat → Option String) (elapsed : ℚ)
    (deviceResult : List (List ℚ))
    (h : (parseArgs args).result = none) :
    run cfg args priorEnv oracle elapsed deviceResult =
      ⟨1, [], (parseArgs args).envAfter, true⟩ := by
  simp only [run]
  rw [h]

theorem run_eq_body (cfg : Config) (args : List String)
    (priorEnv : Option String) (oracle : Nat → Option String) (elapsed : ℚ)
    (deviceResult : List (List ℚ)) (emu verify : Bool)
    (h : (parseArgs args).result = some (emu, verify)) :
    run cfg args priorEnv oracle elapsed deviceResult =
      runBody cfg verify (parseArgs args).envAfter (parseArgs args).path
        oracle elapsed deviceResult := by
  simp only [run]
  rw [h]

theorem runBody_off (cfg : Config) (env : Option String) (path : String)
    (elapsed : ℚ) (deviceResult : List (List ℚ)) :
    runBody cfg false env path (fun _ => none) elapsed deviceResult =
      ⟨0, sessionSteps cfg false path [] [] [] elapsed, env, false⟩ := by
  simp only [runBody, hostInit, Bool.false_eq_true, if_false]
  rw [runSteps_of_none_oracle]
  simp

theorem runBody_on_found (cfg : Config) (env : Option String) (path : String)
    (elapsed : ℚ) (deviceResult : List (List ℚ)) (i j : Nat) (tv rv : ℚ)
    (hfm : findMismatch epsQ (Unpack deviceResult)
        (referenceFlat cfg.n cfg.k cfg.m (hostInit cfg true).a
          (hostInit cfg true).b) cfg.n cfg.m = some (i, j, tv, rv)) :
    runBody cfg true env path (fun _ => none) elapsed deviceResult =
      ⟨1, Event.generate ::
            sessionSteps cfg true path (hostInit cfg true).aMem
              (hostInit cfg true).bMem (hostInit cfg true).cMem elapsed ++
            [Event.refCompute, Event.mismatch i j tv rv],
        env, false⟩ := by
  simp only [runBody, if_true]
  rw [runSteps_of_none_oracle]
  simp only [hfm]
  simp

theorem runBody_on_clean (cfg : Config) (env : Option String) (path : String)
    (elapsed : ℚ) (deviceResult : List (List ℚ))
    (hfm : findMismatch epsQ (Unpack deviceResult)
        (referenceFlat cfg.n cfg.k cfg.m (hostInit cfg true).a
          (hostInit cfg true).b) cfg.n cfg.m = none) :
    runBody cfg true env path (fun _ => none) elapsed deviceResult =
      ⟨0, Event.generate ::
            sessionSteps cfg true path (hostInit cfg true).aMem
              (hostInit cfg true).bMem (hostInit cfg true).cMem elapsed ++
            [Event.refCompute],
        env, false⟩ := by
  simp only [runBody, if_true]
  rw [runSteps_of_none_oracle]
  simp only [hfm]
  simp

theorem runBody_err (cfg : Config) (verify : Bool) (env : Option String)
    (path : String) (oracle : Nat → Option String) (elapsed : ℚ)
    (deviceResult : List (List ℚ)) (i : Nat) (msg : String)
    (h1 : oracle i = some msg) (h2 : ∀ j, j < i → oracle j = none)
    (h3 : i < (sessionSteps cfg verify path (hostInit cfg verify).aMem
        (hostInit cfg verify).bMem (hostInit cfg verify).cMem
        elapsed).length) :
    runBody cfg verify env path oracle elapsed deviceResult =
      ⟨1, (if verify then [Event.generate] else []) ++
            (sessionSteps cfg verify path (hostInit cfg verify).aMem
              (hostInit cfg verify).bMem (hostInit cfg verify).cMem
              elapsed).take i ++
            [Event.stderrMsg msg],
        env, false⟩ := by
  simp only [runBody]
  rw [runSteps_stops_at_err oracle _ 0 i msg (by simpa using h1)
    (fun j hj => by simpa using h2 j hj) h3]

theorem countMismatchEvents_sessionSteps (cfg : Config) (verify : Bool)
    (path : String) (aMem bMem cMem : List (List ℚ)) (elapsed : ℚ) :
    countMismatchEvents
      (sessionSteps cfg verify path aMem bMem cMem elapsed) = 0 := by
  cases verify <;> simp [sessionSteps, countMismatchEvents]

/-- C3: verification scans coordinates in row-major order and the first
mismatch terminates the run with exit status 1: the trace holds exactly one
mismatch report, it names the row-major-first offending coordinate, and
every row-major-earlier coordinate is within tolerance (so it was not
reported). -/
theorem verification_fail_fast (cfg : Config) (args : List String)
    (priorEnv : Option String) (elapsed : ℚ) (deviceResult : List (List ℚ))
    (emu : Bool) (i j : Nat) (tv rv : ℚ)
    (hparse : (parseArgs args).result = some (emu, true))
    (hfm : findMismatch epsQ (Unpack deviceResult)
        (referenceFlat cfg.n cfg.k cfg.m (hostInit cfg true).a
          (hostInit cfg true).b) cfg.n cfg.m = some (i, j, tv, rv)) :
    (run cfg args priorEnv (fun _ => none) elapsed deviceResult).exitCode = 1
    ∧ countMismatchEvents
        (run cfg args priorEnv (fun _ => none) elapsed deviceResult).events = 1
    ∧ Event.mismatch i j tv rv ∈
        (run cfg args priorEnv (fun _ => none) elapsed deviceResult).events
    ∧ i < cfg.n ∧ j < cfg.m
    ∧ ∀ i' j', i' < cfg.n → j' < cfg.m → (i' < i ∨ (i' = i ∧ j' < j)) →
        ¬ mismatchHere epsQ (Unpack deviceResult)
          (referenceFlat cfg.n cfg.k cfg.m (hostInit cfg true).a
            (hostInit cfg true).b) cfg.m i' j' := by
  rw [run_eq_body cfg args priorEnv (fun _ => none) elapsed deviceResult emu
    true hparse]
  rw [runBody_on_found cfg (parseArgs args).envAfter (parseArgs args).path
    elapsed deviceResult i j tv rv hfm]
  obtain ⟨hin, hjm, _, _, _, hmin⟩ :=
    findMismatch_first epsQ (Unpack deviceResult)
      (referenceFlat cfg.n cfg.k cfg.m (hostInit cfg true).a
        (hostInit cfg true).b) cfg.n cfg.m i j tv rv hfm
  refine ⟨rfl, ?_, by simp, hin, hjm, hmin⟩
  have hzero := countMismatchEvents_sessionSteps cfg true
    (parseArgs args).path (hostInit cfg true).aMem (hostInit cfg true).bMem
    (hostInit cfg true).cMem elapsed
  unfold countMismatchEvents at hzero ⊢
  rw [List.length_eq_zero] at hzero
  simp [List.filter_append, hzero]

/-- C3 witness: a 1×1×1 problem with seed 1 generates `a = [8]`, `b = [10]`
and reference `[80]`; a device result of `[[81]]` makes `(0, 0)` the first
and only reported mismatch and the run exit with status 1. -/
theorem verification_fail_fast_witness :
    (parseArgs ["hw"]).result = some (false, true)
    ∧ findMismatch epsQ (Unpack [[(81 : ℚ)]])
        (referenceFlat (Config.mk 1 1 1 1 1).n (Config.mk 1 1 1 1 1).k
          (Config.mk 1 1 1 1 1).m (hostInit (Config.mk 1 1 1 1 1) true).a
          (hostInit (Config.mk 1 1 1 1 1) true).b)
        (Config.mk 1 1 1 1 1).n (Config.mk 1 1 1 1 1).m =
        some (0, 0, 81, 80)
    ∧ ((run (Config.mk 1 1 1 1 1) ["hw"] none (fun _ => none) 1
          [[(81 : ℚ)]]).exitCode = 1
      ∧ countMismatchEvents
          (run (Config.mk 1 1 1 1 1) ["hw"] none (fun _ => none) 1
            [[(81 : ℚ)]]).events = 1
      ∧ Event.mismatch 0 0 81 80 ∈
          (run (Config.mk 1 1 1 1 1) ["hw"] none (fun _ => none) 1
            [[(81 : ℚ)]]).events
      ∧ 0 < (Config.mk 1 1 1 1 1).n ∧ 0 < (Config.mk 1 1 1 1 1).m
      ∧ ∀ i' j', i' < (Config.mk 1 1 1 1 1).n →
          j' < (Config.mk 1 1 1 1 1).m →
          (i' < 0 ∨ (i' = 0 ∧ j' < 0)) →
          ¬ mismatchHere epsQ (Unpack [[(81 : ℚ)]])
            (referenceFlat (Config.mk 1 1 1 1 1).n (Config.mk 1 1 1 1 1).k
              (Config.mk 1 1 1 1 1).m
              (hostInit (Config.mk 1 1 1 1 1) true).a
              (hostInit (Config.mk 1 1 1 1 1) true).b)
            (Config.mk 1 1 1 1 1).m i' j') :=
  have hp : (parseArgs ["hw"]).result = some (false, true) := by
    simp [parseArgs, parseMode]
  have hf : findMismatch epsQ (Unpack [[(81 : ℚ)]])
      (referenceFlat (Config.mk 1 1 1 1 1).n (Config.mk 1 1 1 1 1).k
        (Config.mk 1 1 1 1 1).m (hostInit (Config.mk 1 1 1 1 1) true).a
        (hostInit (Config.mk 1 1 1 1 1) true).b)
      (Config.mk 1 1 1 1 1).n (Config.mk 1 1 1 1 1).m =
      some (0, 0, 81, 80) := by
    norm_num [findMismatch, scanVerify, coordsRowMajor, Unpack, hostInit,
      genFrom, rngNext, referenceFlat, epsQ, List.range_succ, List.range_zero,
      List.flatMap_cons, List.flatMap_nil, Finset.sum_range_one]
  ⟨hp, hf,
    verification_fail_fast (Config.mk 1 1 1 1 1) ["hw"] none 1 [[(81 : ℚ)]]
      false 0 0 81 80 hp hf⟩

/-- C4: when verification is off no operand generation, no reference
computation and no host-device transfer in either direction occurs, yet the
run exits 0 and reports the throughput figure computed from the measured
kernel time alone; when verification is on, all of these steps occur. -/
theorem verify_off_skips_work (cfg : Config) (args : List String)
    (priorEnv : Option String) (elapsed : ℚ) (deviceResult : List (List ℚ))
    (emu verify : Bool)
    (hparse : (parseArgs args).result = some (emu, verify)) :
    (verify = false →
      (run cfg args priorEnv (fun _ => none) elapsed deviceResult).exitCode = 0
      ∧ Event.generate ∉
          (run cfg args priorEnv (fun _ => none) elapsed deviceResult).events
      ∧ (∀ b p, Event.copyFromHost b p ∉
          (run cfg args priorEnv (fun _ => none) elapsed deviceResult).events)
      ∧ (∀ b, Event.copyToHost b ∉
          (run cfg args priorEnv (fun _ => none) elapsed deviceResult).events)
      ∧ Event.refCompute ∉
          (run cfg args priorEnv (fun _ => none) elapsed deviceResult).events
      ∧ Event.printPerf (perfOf cfg elapsed) ∈
          (run cfg args priorEnv (fun _ => none) elapsed deviceResult).events)
    ∧ (verify = true →
      Event.generate ∈
          (run cfg args priorEnv (fun _ => none) elapsed deviceResult).events
      ∧ Event.copyFromHost 0 (hostInit cfg true).aMem ∈
          (run cfg args priorEnv (fun _ => none) elapsed deviceResult).events
      ∧ Event.copyFromHost 1 (hostInit cfg true).bMem ∈
          (run cfg args priorEnv (fun _ => none) elapsed deviceResult).events
      ∧ Event.copyFromHost 2 (hostInit cfg true).cMem ∈
          (run cfg args priorEnv (fun _ => none) elapsed deviceResult).events
      ∧ Event.copyToHost 2 ∈
          (run cfg args priorEnv (fun _ => none) elapsed deviceResult).events
      ∧ Event.refCompute ∈
          (run cfg args priorEnv (fun _ => none) elapsed deviceResult).events
      ∧ Event.printPerf (perfOf cfg elapsed) ∈
          (run cfg args priorEnv (fun _ => none) elapsed deviceResult).events) := by
  constructor
  · intro hv
    subst hv
    rw [run_eq_body cfg args priorEnv (fun _ => none) elapsed deviceResult emu
      false hparse]
    rw [runBody_off]
    refine ⟨rfl, ?_, ?_, ?_, ?_, ?_⟩ <;> simp [sessionSteps]
  · intro hv
    subst hv
    rw [run_eq_body cfg args priorEnv (fun _ => none) elapsed deviceResult emu
      true hparse]
    rcases hfm : findMismatch epsQ (Unpack deviceResult)
        (referenceFlat cfg.n cfg.k cfg.m (hostInit cfg true).a
          (hostInit cfg true).b) cfg.n cfg.m with _ | ⟨i, j, tv, rv⟩
    · rw [runBody_on_clean cfg (parseArgs args).envAfter (parseArgs args).path
        elapsed deviceResult hfm]
      refine ⟨by simp, ?_, ?_, ?_, ?_, by simp, ?_⟩ <;> simp [sessionSteps]
    · rw [runBody_on_found cfg (parseArgs args).envAfter (parseArgs args).path
        elapsed deviceResult i j tv rv hfm]
      refine ⟨by simp, ?_, ?_, ?_, ?_, by simp, ?_⟩ <;> simp [sessionSteps]

/-- C4 witness: the run `["hw", "off"]` at a concrete configuration. -/
theorem verify_off_skips_work_witness :
    (parseArgs ["hw", "off"]).result = some (false, false)
    ∧ ((false = false →
      (run (Config.mk 2 2 2 2 5) ["hw", "off"] none (fun _ => none) 1
        []).exitCode = 0
      ∧ Event.generate ∉
          (run (Config.mk 2 2 2 2 5) ["hw", "off"] none (fun _ => none) 1
            []).events
      ∧ (∀ b p, Event.copyFromHost b p ∉
          (run (Config.mk 2 2 2 2 5) ["hw", "off"] none (fun _ => none) 1
            []).events)
      ∧ (∀ b, Event.copyToHost b ∉
          (run (Config.mk 2 2 2 2 5) ["hw", "off"] none (fun _ => none) 1
            []).events)
      ∧ Event.refCompute ∉
          (run (Config.mk 2 2 2 2 5) ["hw", "off"] none (fun _ => none) 1
            []).events
      ∧ Event.printPerf (perfOf (Config.mk 2 2 2 2 5) 1) ∈
          (run (Config.mk 2 2 2 2 5) ["hw", "off"] none (fun _ => none) 1
            []).events)
    ∧ (false = true →
      Event.generate ∈
          (run (Config.mk 2 2 2 2 5) ["hw", "off"] none (fun _ => none) 1
            []).events
      ∧ Event.copyFromHost 0 (hostInit (Config.mk 2 2 2 2 5) true).aMem ∈
          (run (Config.mk 2 2 2 2 5) ["hw", "off"] none (fun _ => none) 1
            []).events
      ∧ Event.copyFromHost 1 (hostInit (Config.mk 2 2 2 2 5) true).bMem ∈
          (run (Config.mk 2 2 2 2 5) ["hw", "off"] none (fun _ => none) 1
            []).events
      ∧ Event.copyFromHost 2 (hostInit (Config.mk 2 2 2 2 5) true).cMem ∈
          (run (Config.mk 2 2 2 2 5) ["hw", "off"] none (fun _ => none) 1
            []).events
      ∧ Event.copyToHost 2 ∈
          (run (Config.mk 2 2 2 2 5) ["hw", "off"] none (fun _ => none) 1
            []).events
      ∧ Event.refCompute ∈
          (run (Config.mk 2 2 2 2 5) ["hw", "off"] none (fun _ => none) 1
            []).events
      ∧ Event.printPerf (perfOf (Config.mk 2 2 2 2 5) 1) ∈
          (run (Config.mk 2 2 2 2 5) ["hw", "off"] none (fun _ => none) 1
            []).events)) :=
  have hp : (parseArgs ["hw", "off"]).result = some (false, false) := by
    simp [parseArgs, parseMode, parseVerify]
  ⟨hp, verify_off_skips_work (Config.mk 2 2 2 2 5) ["hw", "off"] none 1 []
    false false hp⟩

/-- C5: the command line is accepted exactly when there are at most two
arguments, argument 1 (default `hw`) is `hw` or `hw_emu`, and argument 2
(default `on`) is `on` or `off`; a rejected command line prints the usage
text and exits with status 1 with an empty trace, so before any accelerator
interaction; the four lists of the spec are accepted and the three rejected
examples are rejected. -/
theorem cli_validation (cfg : Config) (args : List String)
    (priorEnv : Option String) (oracle : Nat → Option String) (elapsed : ℚ)
    (deviceResult : List (List ℚ)) :
    ((parseArgs args).result.isSome = true ↔ specValidArgs args = true)
    ∧ ((parseArgs args).result = none →
        run cfg args priorEnv oracle elapsed deviceResult =
          ⟨1, [], (parseArgs args).envAfter, true⟩)
    ∧ (parseArgs ["hw", "on"]).result = some (false, true)
    ∧ (parseArgs ["hw_emu", "off"]).result = some (true, false)
    ∧ (parseArgs ([] : List String)).result = some (false, true)
    ∧ (parseArgs ["hw"]).result = some (false, true)
    ∧ (parseArgs ["foo"]).result = none
    ∧ (parseArgs ["hw", "maybe"]).result = none
    ∧ (parseArgs ["hw", "on", "hw"]).result = none := by
  refine ⟨?_, ?_, ?_, ?_, ?_, ?_, ?_, ?_, ?_⟩
  · rcases args with _ | ⟨a1, _ | ⟨a2, _ | ⟨a3, rest⟩⟩⟩
    · simp [parseArgs, specValidArgs]
    · by_cases h1 : a1 = "hw_emu" <;> by_cases h2 : a1 = "hw" <;>
        simp [parseArgs, parseMode, specValidArgs, h1, h2]
    · by_cases h1 : a1 = "hw_emu" <;> by_cases h2 : a1 = "hw" <;>
        by_cases h3 : a2 = "off" <;> by_cases h4 : a2 = "on" <;>
        simp [parseArgs, parseMode, parseVerify, specValidArgs, h1, h2, h3, h4]
    · simp [parseArgs, specValidArgs]
  · intro h
    exact run_eq_usage cfg args priorEnv oracle elapsed deviceResult h
  · simp [parseArgs, parseMode, parseVerify]
  · simp [parseArgs, parseMode, parseVerify]
  · simp [parseArgs]
  · simp [parseArgs, parseMode]
  · simp [parseArgs, parseMode]
  · simp [parseArgs, parseMode, parseVerify]
  · simp [parseArgs]

theorem countStderrEvents_sessionSteps (cfg : Config) (verify : Bool)
    (path : String) (aMem bMem cMem : List (List ℚ)) (elapsed : ℚ) :
    countStderrEvents
      (sessionSteps cfg verify path aMem bMem cMem elapsed) = 0 := by
  cases verify <;> simp [sessionSteps, countStderrEvents]

theorem refCompute_not_mem_sessionSteps (cfg : Config) (verify : Bool)
    (path : String) (aMem bMem cMem : List (List ℚ)) (elapsed : ℚ) :
    Event.refCompute ∉ sessionSteps cfg verify path aMem bMem cMem elapsed := by
  cases verify <;> simp [sessionSteps]

theorem filter_take_eq_zero (f : Event → Bool) (l : List Event) (i : Nat)
    (h : (l.filter f).length = 0) : ((l.take i).filter f).length = 0 := by
  rw [List.length_eq_zero] at h ⊢
  have hsub : List.Sublist ((l.take i).filter f) (l.filter f) :=
    (List.take_sublist i l).filter f
  rw [h] at hsub
  exact List.sublist_nil.mp hsub

/-- C6: a runtime-reported accelerator error at any session step — context,
programming, buffer allocation, transfer or kernel execution — is caught
once at the top of the run: the trace holds exactly the completed steps
followed by a single standard-error message carrying the error text, the
exit status is 1, and there is no retry and no partial completion (no
reference computation and no verification happens). -/
theorem runtime_error_fatal (cfg : Config) (args : List String)
    (priorEnv : Option String) (oracle : Nat → Option String) (elapsed : ℚ)
    (deviceResult : List (List ℚ)) (emu verify : Bool) (i : Nat) (msg : String)
    (hparse : (parseArgs args).result = some (emu, verify))
    (h1 : oracle i = some msg) (h2 : ∀ j, j < i → oracle j = none)
    (h3 : i < (sessionSteps cfg verify (parseArgs args).path
        (hostInit cfg verify).aMem (hostInit cfg verify).bMem
        (hostInit cfg verify).cMem elapsed).length) :
    run cfg args priorEnv oracle elapsed deviceResult =
      ⟨1, (if verify then [Event.generate] else []) ++
            (sessionSteps cfg verify (parseArgs args).path
              (hostInit cfg verify).aMem (hostInit cfg verify).bMem
              (hostInit cfg verify).cMem elapsed).take i ++
            [Event.stderrMsg msg],
        (parseArgs args).envAfter, false⟩
    ∧ countStderrEvents
        (run cfg args priorEnv oracle elapsed deviceResult).events = 1
    ∧ Event.refCompute ∉
        (run cfg args priorEnv oracle elapsed deviceResult).events
    ∧ countMismatchEvents
        (run cfg args priorEnv oracle elapsed deviceResult).events = 0 := by
  rw [run_eq_body cfg args priorEnv oracle elapsed deviceResult emu verify
    hparse]
  rw [runBody_err cfg verify (parseArgs args).envAfter (parseArgs args).path
    oracle elapsed deviceResult i msg h1 h2 h3]
  have hstderr := countStderrEvents_sessionSteps cfg verify
    (parseArgs args).path (hostInit cfg verify).aMem (hostInit cfg verify).bMem
    (hostInit cfg verify).cMem elapsed
  have hmis := countMismatchEvents_sessionSteps cfg verify
    (parseArgs args).path (hostInit cfg verify).aMem (hostInit cfg verify).bMem
    (hostInit cfg verify).cMem elapsed
  unfold countStderrEvents at hstderr
  unfold countMismatchEvents at hmis
  have hstderr2 := filter_take_eq_zero _ _ i hstderr
  have hmis2 := filter_take_eq_zero _ _ i hmis
  rw [List.length_eq_zero] at hstderr2 hmis2
  have hrc : Event.refCompute ∉
      (sessionSteps cfg verify (parseArgs args).path
        (hostInit cfg verify).aMem (hostInit cfg verify).bMem
        (hostInit cfg verify).cMem elapsed).take i :=
    fun hmem => refCompute_not_mem_sessionSteps cfg verify
      (parseArgs args).path (hostInit cfg verify).aMem
      (hostInit cfg verify).bMem (hostInit cfg verify).cMem elapsed
      (List.take_subset i _ hmem)
  refine ⟨rfl, ?_, ?_, ?_⟩
  · unfold countStderrEvents
    cases verify <;>
      simp [List.filter_append, hstderr2]
  · cases verify <;> simp [hrc]
  · unfold countMismatchEvents
    cases verify <;>
      simp [List.filter_append, hmis2]

/-- C6 witness: an error `boom` thrown at the first session step (context
creation) of the run `["hw"]` aborts with exit 1 and a single
standard-error report. -/
theorem runtime_error_fatal_witness :
    run (Config.mk 1 1 1 1 1) ["hw"] none
        (fun n => if n = 0 then some "boom" else none) 1 [] =
      ⟨1, (if true then [Event.generate] else []) ++
            (sessionSteps (Config.mk 1 1 1 1 1) true
              (parseArgs ["hw"]).path
              (hostInit (Config.mk 1 1 1 1 1) true).aMem
              (hostInit (Config.mk 1 1 1 1 1) true).bMem
              (hostInit (Config.mk 1 1 1 1 1) true).cMem 1).take 0 ++
            [Event.stderrMsg "boom"],
        (parseArgs ["hw"]).envAfter, false⟩
    ∧ countStderrEvents
        (run (Config.mk 1 1 1 1 1) ["hw"] none
          (fun n => if n = 0 then some "boom" else none) 1 []).events = 1
    ∧ Event.refCompute ∉
        (run (Config.mk 1 1 1 1 1) ["hw"] none
          (fun n => if n = 0 then some "boom" else none) 1 []).events
    ∧ countMismatchEvents
        (run (Config.mk 1 1 1 1 1) ["hw"] none
          (fun n => if n = 0 then some "boom" else none) 1 []).events = 0 :=
  runtime_error_fatal (Config.mk 1 1 1 1 1) ["hw"] none
    (fun n => if n = 0 then some "boom" else none) 1 [] false true 0 "boom"
    (by simp [parseArgs, parseMode]) (by simp)
    (fun j hj => absurd hj (Nat.not_lt_zero j)) (by simp [sessionSteps])

theorem parseArgs_env_path (args : List String) (emu verify : Bool)
    (h : (parseArgs args).result = some (emu, verify)) :
    (parseArgs args).envAfter =
      (if args.head? = some "hw_emu" then some "hw_emu" else none)
    ∧ (parseArgs args).path =
      (if args.head? = some "hw_emu" then hwEmuPath else hwPath) := by
  rcases args with _ | ⟨a1, _ | ⟨a2, _ | ⟨a3, rest⟩⟩⟩
  · simp [parseArgs]
  · by_cases h1 : a1 = "hw_emu" <;> by_cases h2 : a1 = "hw" <;>
      simp_all [parseArgs, parseMode]
  · by_cases h1 : a1 = "hw_emu" <;> by_cases h2 : a1 = "hw" <;>
      by_cases h3 : a2 = "off" <;> by_cases h4 : a2 = "on" <;>
      simp_all [parseArgs, parseMode, parseVerify]
  · simp [parseArgs] at h

theorem runBody_env (cfg : Config) (verify : Bool) (env : Option String)
    (path : String) (oracle : Nat → Option String) (elapsed : ℚ)
    (deviceResult : List (List ℚ)) :
    (runBody cfg verify env path oracle elapsed deviceResult).env = env := by
  simp only [runBody]
  cases (runSteps oracle 0 (sessionSteps cfg verify path
      (hostInit cfg verify).aMem (hostInit cfg verify).bMem
      (hostInit cfg verify).cMem elapsed)).2 with
  | some msg => rfl
  | none =>
    cases verify with
    | false => rfl
    | true =>
      cases hfm : findMismatch epsQ (Unpack deviceResult)
          (referenceFlat cfg.n cfg.k cfg.m (hostInit cfg true).a
            (hostInit cfg true).b) cfg.n cfg.m with
      | none => simp [hfm]
      | some v =>
        obtain ⟨i, j, tv, rv⟩ := v
        simp [hfm]

/-- C7: for every run that passes argument validation, the final state of
the `XCL_EMULATION_MODE` environment variable is `hw_emu` exactly when
argument 1 selected mode `hw_emu` and is unset otherwise — independently of
its prior value in the calling shell — and the bitstream image loaded is
`MatrixMultiplication_hw_emu.xclbin` for `hw_emu` and
`MatrixMultiplication_hw.xclbin` for `hw`. -/
theorem env_and_image_selection (cfg : Config) (args : List String)
    (priorEnv : Option String) (oracle : Nat → Option String) (elapsed : ℚ)
    (deviceResult : List (List ℚ)) (emu verify : Bool)
    (hparse : (parseArgs args).result = some (emu, verify)) :
    ((run cfg args priorEnv oracle elapsed deviceResult).env =
      if args.head? = some "hw_emu" then some "hw_emu" else none)
    ∧ ((parseArgs args).path =
      if args.head? = some "hw_emu" then hwEmuPath else hwPath)
    ∧ Event.makeProgram (parseArgs args).path ∈
        (run cfg args priorEnv (fun _ => none) elapsed deviceResult).events := by
  obtain ⟨henv, hpath⟩ := parseArgs_env_path args emu verify hparse
  refine ⟨?_, hpath, ?_⟩
  · rw [run_eq_body cfg args priorEnv oracle elapsed deviceResult emu verify
      hparse]
    rw [runBody_env]
    exact henv
  · rw [run_eq_body cfg args priorEnv (fun _ => none) elapsed deviceResult emu
      verify hparse]
    cases verify with
    | false =>
      rw [runBody_off]
      simp [sessionSteps]
    | true =>
      rcases hfm : findMismatch epsQ (Unpack deviceResult)
          (referenceFlat cfg.n cfg.k cfg.m (hostInit cfg true).a
            (hostInit cfg true).b) cfg.n cfg.m with _ | ⟨i, j, tv, rv⟩
      · rw [runBody_on_clean cfg (parseArgs args).envAfter
          (parseArgs args).path elapsed deviceResult hfm]
        simp [sessionSteps]
      · rw [runBody_on_found cfg (parseArgs args).envAfter
          (parseArgs args).path elapsed deviceResult i j tv rv hfm]
        simp [sessionSteps]

/-- C7 witness: the runs `["hw_emu", "off"]` and `["hw"]` at a concrete
configuration select the emulation environment and image, and the default
hardware image, respectively. -/
theorem env_and_image_selection_witness :
    (parseArgs ["hw_emu", "off"]).result = some (true, false)
    ∧ ((run (Config.mk 1 1 1 1 1) ["hw_emu", "off"] (some "stale")
          (fun _ => none) 1 []).env =
        if (["hw_emu", "off"] : List String).head? = some "hw_emu" then
          some "hw_emu" else none)
    ∧ ((parseArgs ["hw_emu", "off"]).path =
        if (["hw_emu", "off"] : List String).head? = some "hw_emu" then
          hwEmuPath else hwPath)
    ∧ Event.makeProgram (parseArgs ["hw_emu", "off"]).path ∈
        (run (Config.mk 1 1 1 1 1) ["hw_emu", "off"] (some "stale")
          (fun _ => none) 1 []).events :=
  have hp : (parseArgs ["hw_emu", "off"]).result = some (true, false) := by
    simp [parseArgs, parseMode, parseVerify]
  ⟨hp, env_and_image_selection (Config.mk 1 1 1 1 1) ["hw_emu", "off"]
    (some "stale") (fun _ => none) 1 [] true false hp⟩

theorem genFrom_mem_range (len : Nat) :
    ∀ (s : Nat) (v : ℚ), v ∈ (genFrom s len).1 → 1 ≤ v ∧ v ≤ 10 := by
  induction len with
  | zero =>
    intro s v hv
    simp [genFrom] at hv
  | succ n ih =>
    intro s v hv
    simp only [genFrom] at hv
    rcases List.mem_cons.mp hv with hv | hv
    · subst hv
      constructor
      · have hpos : (0 : ℚ) ≤ ((rngNext s % 10 : Nat) : ℚ) := by positivity
        linarith
      · have hle : rngNext s % 10 ≤ 9 := by omega
        have hle' : ((rngNext s % 10 : Nat) : ℚ) ≤ 9 := by exact_mod_cast hle
        linarith
    · exact ih (rngNext s) v hv

/-- C8: operand generation and the reference computation are pure functions
of the seed, the configuration and their inputs: two runs with the same
seed draw bit-identical operand sequences (with every value in [1, 10]),
the same configuration prepares bit-identical host data, and equal operands
give a bit-identical reference result. -/
theorem reference_determinism (cfg1 cfg2 : Config) (s1 s2 len n k m : Nat)
    (a1 a2 b1 b2 : List ℚ)
    (hs : s1 = s2) (hcfg : cfg1 = cfg2) (ha : a1 = a2) (hb : b1 = b2) :
    genFrom s1 len = genFrom s2 len
    ∧ hostInit cfg1 true = hostInit cfg2 true
    ∧ referenceFlat n k m a1 b1 = referenceFlat n k m a2 b2
    ∧ ∀ v ∈ (genFrom s1 len).1, 1 ≤ v ∧ v ≤ 10 := by
  subst hs hcfg ha hb
  exact ⟨rfl, rfl, rfl, genFrom_mem_range len s1⟩

/-- C8 witness: two runs at seed 1 at a concrete configuration. -/
theorem reference_determinism_witness :
    (1 : Nat) = 1 ∧ Config.mk 2 2 2 2 1 = Config.mk 2 2 2 2 1
    ∧ ([(3 : ℚ), 4] = [(3 : ℚ), 4]) ∧ ([(5 : ℚ), 6] = [(5 : ℚ), 6])
    ∧ (genFrom 1 4 = genFrom 1 4
      ∧ hostInit (Config.mk 2 2 2 2 1) true = hostInit (Config.mk 2 2 2 2 1) true
      ∧ referenceFlat 2 2 2 [(3 : ℚ), 4] [(5 : ℚ), 6] =
          referenceFlat 2 2 2 [(3 : ℚ), 4] [(5 : ℚ), 6]
      ∧ ∀ v ∈ (genFrom 1 4).1, 1 ≤ v ∧ v ≤ 10) :=
  ⟨rfl, rfl, rfl, rfl,
    reference_determinism (Config.mk 2 2 2 2 1) (Config.mk 2 2 2 2 1) 1 1 4
      2 2 2 [(3 : ℚ), 4] [(3 : ℚ), 4] [(5 : ℚ), 6] [(5 : ℚ), 6]
      rfl rfl rfl rfl⟩

/-- C9: for integral element types the tolerance literal 1e-3 converts to
zero, so a coordinate is a mismatch exactly when the accelerator and
reference values differ at all, and the verification scan accepts exactly
when both results agree exactly at every coordinate. -/
theorem integral_tolerance_is_exact (t r : List ℤ) (n m : Nat) :
    epsInt = 0
    ∧ (findMismatch epsInt t r n m = none ↔
        ∀ i j, i < n → j < m → t.getD (i * m + j) 0 = r.getD (i * m + j) 0)
    ∧ ∀ i j, (mismatchHere epsInt t r m i j ↔
        t.getD (i * m + j) 0 ≠ r.getD (i * m + j) 0) := by
  have hdiv : epsQ = Rat.divInt 1 1000 := by
    rw [Rat.divInt_eq_div]
    norm_num [epsQ]
  have he : epsInt = 0 := by
    rw [epsInt, hdiv]
    decide
  have hmis : ∀ i j, mismatchHere epsInt t r m i j ↔
      t.getD (i * m + j) 0 ≠ r.getD (i * m + j) 0 := by
    intro i j
    unfold mismatchHere
    rw [he, abs_pos, sub_ne_zero]
  refine ⟨he, ?_, hmis⟩
  rw [findMismatch_eq_none_iff]
  constructor
  · intro h i j hi hj
    have := h i j hi hj
    rw [hmis i j, not_ne_iff] at this
    exact this
  · intro h i j hi hj
    rw [hmis i j, not_ne_iff]
    exact h i j hi hj

theorem mem_of_mem_Pack_aux {α : Type} (W : Nat) :
    ∀ (n : Nat) (x pk : List α), x.length ≤ n → pk ∈ Pack W x →
      ∀ v ∈ pk, v ∈ x := by
  intro n
  induction n with
  | zero =>
    intro x pk hx hpk
    have hnil : x = [] := List.eq_nil_of_length_eq_zero (Nat.le_zero.mp hx)
    subst hnil
    rw [Pack_nil] at hpk
    simp at hpk
  | succ n ih =>
    intro x pk hx hpk v hv
    by_cases hW : W = 0
    · subst hW
      rw [Pack] at hpk
      simp at hpk
    · by_cases hempty : x = []
      · subst hempty
        rw [Pack_nil] at hpk
        simp at hpk
      · rw [Pack_cons W (by omega) x hempty] at hpk
        rcases List.mem_cons.mp hpk with h | h
        · subst h
          exact List.take_subset W x hv
        · have hlen : 0 < x.length := List.length_pos.mpr hempty
          have hd : (x.drop W).length ≤ n := by
            simp only [List.length_drop]
            omega
          exact List.drop_subset W x (ih (x.drop W) pk hd h v hv)

theorem mem_of_mem_Pack {α : Type} (W : Nat) (x pk : List α)
    (hpk : pk ∈ Pack W x) : ∀ v ∈ pk, v ∈ x :=
  mem_of_mem_Pack_aux W x.length x pk le_rfl hpk

/-- C10: when verification is on, the packed zero-initialized result buffer
is copied host-to-device into the output buffer (buffer 2, the write-access
one) before the kernel executes, so the device-resident output region
starts as all zeros; when verification is off, no host-to-device copy of
any buffer occurs. -/
theorem output_buffer_zero_initialized (cfg : Config) (args : List String)
    (priorEnv : Option String) (elapsed : ℚ) (deviceResult : List (List ℚ))
    (emu verify : Bool)
    (hparse : (parseArgs args).result = some (emu, verify)) :
    (verify = true →
      ∃ pre post,
        (run cfg args priorEnv (fun _ => none) elapsed deviceResult).events =
          pre ++ Event.copyFromHost 2
            (Pack cfg.w (List.replicate (cfg.n * cfg.m) 0)) :: post
        ∧ Event.execute ∉ pre ∧ Event.execute ∈ post
        ∧ ∀ pk ∈ Pack cfg.w (List.replicate (cfg.n * cfg.m) (0 : ℚ)),
            ∀ v ∈ pk, v = 0)
    ∧ (verify = false →
        ∀ b p, Event.copyFromHost b p ∉
          (run cfg args priorEnv (fun _ => none) elapsed deviceResult).events) := by
  have hzeros : ∀ pk ∈ Pack cfg.w (List.replicate (cfg.n * cfg.m) (0 : ℚ)),
      ∀ v ∈ pk, v = 0 := fun pk hpk v hv =>
    List.eq_of_mem_replicate (mem_of_mem_Pack cfg.w _ pk hpk v hv)
  have hcMem : (hostInit cfg true).cMem =
      Pack cfg.w (List.replicate (cfg.n * cfg.m) 0) := by
    simp [hostInit]
  constructor
  · intro hv
    subst hv
    rw [run_eq_body cfg args priorEnv (fun _ => none) elapsed deviceResult emu
      true hparse]
    rcases hfm : findMismatch epsQ (Unpack deviceResult)
        (referenceFlat cfg.n cfg.k cfg.m (hostInit cfg true).a
          (hostInit cfg true).b) cfg.n cfg.m with _ | ⟨i, j, tv, rv⟩
    · rw [runBody_on_clean cfg (parseArgs args).envAfter (parseArgs args).path
        elapsed deviceResult hfm]
      refine ⟨[Event.generate, Event.makeContext,
        Event.makeProgram (parseArgs args).path,
        Event.makeBuffer 0 (cfg.n * cfg.k / cfg.w) Access.read,
        Event.makeBuffer 1 (cfg.k * cfg.m / cfg.w) Access.read,
        Event.makeBuffer 1 (cfg.n * cfg.m / cfg.w) Access.write,
        Event.copyFromHost 0 (hostInit cfg true).aMem,
        Event.copyFromHost 1 (hostInit cfg true).bMem],
        [Event.makeKernel, Event.execute,
          Event.printPerf (perfOf cfg elapsed), Event.copyToHost 2,
          Event.refCompute], ?_, by simp, by simp, hzeros⟩
      simp [sessionSteps, hcMem]
    · rw [runBody_on_found cfg (parseArgs args).envAfter (parseArgs args).path
        elapsed deviceResult i j tv rv hfm]
      refine ⟨[Event.generate, Event.makeContext,
        Event.makeProgram (parseArgs args).path,
        Event.makeBuffer 0 (cfg.n * cfg.k / cfg.w) Access.read,
        Event.makeBuffer 1 (cfg.k * cfg.m / cfg.w) Access.read,
        Event.makeBuffer 1 (cfg.n * cfg.m / cfg.w) Access.write,
        Event.copyFromHost 0 (hostInit cfg true).aMem,
        Event.copyFromHost 1 (hostInit cfg true).bMem],
        [Event.makeKernel, Event.execute,
          Event.printPerf (perfOf cfg elapsed), Event.copyToHost 2,
          Event.refCompute, Event.mismatch i j tv rv], ?_, by simp, by simp,
        hzeros⟩
      simp [sessionSteps, hcMem]
  · intro hv
    subst hv
    rw [run_eq_body cfg args priorEnv (fun _ => none) elapsed deviceResult emu
      false hparse]
    rw [runBody_off]
    intro b p
    simp [sessionSteps]

/-- C10 witness: the run `["hw"]` at a concrete 1×1 configuration. -/
theorem output_buffer_zero_initialized_witness :
    (parseArgs ["hw"]).result = some (false, true)
    ∧ ((true = true →
      ∃ pre post,
        (run (Config.mk 1 1 1 1 1) ["hw"] none (fun _ => none) 1
            [[(81 : ℚ)]]).events =
          pre ++ Event.copyFromHost 2
            (Pack (Config.mk 1 1 1 1 1).w
              (List.replicate
                ((Config.mk 1 1 1 1 1).n * (Config.mk 1 1 1 1 1).m) 0)) :: post
        ∧ Event.execute ∉ pre ∧ Event.execute ∈ post
        ∧ ∀ pk ∈ Pack (Config.mk 1 1 1 1 1).w
            (List.replicate
              ((Config.mk 1 1 1 1 1).n * (Config.mk 1 1 1 1 1).m) (0 : ℚ)),
            ∀ v ∈ pk, v = 0)
    ∧ (true = false →
        ∀ b p, Event.copyFromHost b p ∉
          (run (Config.mk 1 1 1 1 1) ["hw"] none (fun _ => none) 1
            [[(81 : ℚ)]]).events)) :=
  have hp : (parseArgs ["hw"]).result = some (false, true) := by
    simp [parseArgs, parseMode]
  ⟨hp, output_buffer_zero_initialized (Config.mk 1 1 1 1 1) ["hw"] none 1
    [[(81 : ℚ)]] false true hp⟩

end GemmHost
